import Mathlib

/-! circonus-agent: reverse connection, check and collector construction.

A shallow embedding of

* `internal/reverse/main.go` (`New`, `Connection.Start`, `Connection.Stop`),
* `internal/check/main.go` (`New`, `Check.GetReverseConfig`),
* `internal/builtins/collector/generic/cpu.go` (`NewCPUCollector`, `CPU.Collect`),

followed by the properties proved about them. Go `error` values are `Option GoError`
(`none` is `nil`), a function returning `(*T, error)` returns `Except GoError T`, and a
panic is the `Except.error` of a computation over `Panic`.
-/

/-! ## Go values shared by the three packages -/

/-- A non-nil Go `error`. `errStillAlive` and `errDying` are the two sentinel errors of the
tomb package, `errTTLNotExpired` and `errAlreadyRunning` those of package `collector`, `msg`
is `errors.New`/`errors.Errorf`, `wrap` is `errors.Wrap(cause, text)`. -/
inductive GoError where
  | errStillAlive
  | errDying
  | errTTLNotExpired
  | errAlreadyRunning
  | msg (text : String)
  | wrap (cause : GoError) (text : String)
deriving DecidableEq, Repr

/-- A Go `error`: `none` is `nil`. -/
abbrev Error := Option GoError

/-- A Go panic, with its message. -/
structure Panic where
  text : String
deriving DecidableEq, Repr

/-- The settings read through viper by the code under study. -/
structure ViperConfig where
  reverse : Bool
  reverseCID : String
  listen : String
  checkCreate : Bool
  checkEnableNewMetrics : Bool
  checkBundleID : String
  checkMetricRefreshTTL : String
  apiTokenKey : String
  apiTokenApp : String
  apiURL : String
  debugCGM : Bool
deriving DecidableEq, Repr

/-! ### `strings.Replace(s, old, new, -1)` -/

/-- The scan of `strings.Replace` with `n = -1` and a non-empty `old`, over the characters of
the string: `skip` counts the characters of a matched occurrence still to be dropped. At a
position where `old` starts, `new` is written and the occurrence is skipped (so matches are
leftmost and do not overlap); any other character is copied. -/
def stringsReplaceScan (old new : List Char) : Nat → List Char → List Char
  | _, [] => []
  | skip + 1, _ :: cs => stringsReplaceScan old new skip cs
  | 0, c :: cs =>
    if old.isPrefixOf (c :: cs) then new ++ stringsReplaceScan old new (old.length - 1) cs
    else c :: stringsReplaceScan old new 0 cs

/-- The Go call `strings.Replace(s, old, new, -1)`; with an empty `old` Go inserts `new`
around every character, a case the code under study never uses and which is left as `s`. -/
def stringsReplace (s old new : String) : String :=
  if old.data = [] then s else String.mk (stringsReplaceScan old.data new.data 0 s.data)

/-- The words of the claim about the agent address, as a relation between a string `s` and
its rewriting `r`: every leftmost, non-overlapping occurrence of `old` in `s` is replaced by
`new`. Either `s` holds no occurrence and `r = s`, or `s = p ++ old ++ rest` where the
occurrence after `p` is the leftmost one (none starts earlier), it is replaced by `new`, and
the rewriting goes on in `rest`. -/
inductive LeftmostReplaced (old new : List Char) : List Char → List Char → Prop where
  | none (s : List Char) : ¬ old <:+: s → LeftmostReplaced old new s s
  | occurrence (p rest r : List Char) : ¬ old <:+: p ++ old.dropLast →
      LeftmostReplaced old new rest r →
      LeftmostReplaced old new (p ++ old ++ rest) (p ++ new ++ r)

/-! ## The tomb (`gopkg.in/tomb.v2`) that supervises the reader and processor tasks -/

/-- Modelled from the spec: the tomb-style task group of the reverse connection (spec §9,
"start N tasks, on first exit cancel the rest, join all before reporting the group's
result"). `main.go` uses it through `Go`, `Kill`, `Alive` and `Wait`; its type is declared
outside the sources studied, in `gopkg.in/tomb.v2`, whose rules the operations below
follow. The fields are those of `tomb.Tomb` after `init`: the number of tracked goroutines,
the death reason (`ErrStillAlive` until killed), and whether the `dying` and `dead`
channels are closed. -/
structure Tomb where
  alive : Nat
  reason : Error
  dying : Bool
  dead : Bool
deriving DecidableEq, Repr

namespace Tomb

/-- A tomb on first use: `reason = ErrStillAlive`, both channels open. -/
def fresh : Tomb := { alive := 0, reason := some .errStillAlive, dying := false, dead := false }

/-- The unexported `kill`: the first reason wins, a nil reason is replaced by a later
error, `ErrDying` is ignored, `ErrStillAlive` panics. -/
def kill (t : Tomb) (reason : Error) : Except Panic Tomb :=
  if reason = some .errStillAlive then .error ⟨"tomb: Kill with ErrStillAlive"⟩
  else if reason = some .errDying then
    if t.reason = some .errStillAlive then
      .error ⟨"tomb: Kill with ErrDying while still alive"⟩
    else .ok t
  else if t.reason = some .errStillAlive then .ok { t with reason := reason, dying := true }
  else if t.reason = none then .ok { t with reason := reason }
  else .ok t

/-- The method `Kill(reason)`. -/
def Kill (t : Tomb) (reason : Error) : Except Panic Tomb := t.kill reason

/-- The method `Err()`. -/
def Err (t : Tomb) : Error := t.reason

/-- The method `Alive()`: `t.Err() == ErrStillAlive`. -/
def Alive (t : Tomb) : Bool := decide (t.Err = some .errStillAlive)

/-- The method `Go(f)`, up to the spawn of `f`: one more tracked goroutine. -/
def Go (t : Tomb) : Except Panic Tomb :=
  if t.dead then .error ⟨"tomb.Go called after all goroutines terminated"⟩
  else .ok { t with alive := t.alive + 1 }

/-- The end of `run(f)`, when the tracked function `f` has returned `err`. -/
def taskReturn (t : Tomb) (err : Error) : Except Panic Tomb :=
  let t1 := { t with alive := t.alive - 1 }
  if t1.alive = 0 ∨ err ≠ none then
    match t1.kill err with
    | .error p => .error p
    | .ok t2 => if t2.alive = 0 then .ok { t2 with dead := true } else .ok t2
  else .ok t1

/-- The method `Wait()`: blocked (`none`) until `dead` is closed, then the reason. -/
def Wait (t : Tomb) : Option Error := if t.dead then some t.reason else none

end Tomb

/-! ## Package `reverse` -/

namespace Reverse

/-- The TLS transport held in `Connection.conn`, as far as `Stop` uses it. -/
structure TLSConn where
  closed : Bool
  peer : String
deriving DecidableEq, Repr

/-- The method `Close()` of the transport: closed afterwards; closing twice reports an error. -/
def TLSConn.Close (k : TLSConn) : Error × TLSConn :=
  (if k.closed then some (.msg "use of closed network connection") else none,
   { k with closed := true })

/-- The constants `commTimeoutSeconds`, `dialerTimeoutSeconds`, `maxDelaySeconds` and
`metricTimeoutSeconds`, declared outside the sources studied. -/
structure Constants where
  commTimeoutSeconds : Int
  dialerTimeoutSeconds : Int
  maxDelaySeconds : Int
  metricTimeoutSeconds : Int
deriving DecidableEq, Repr

/-- One second, as a `time.Duration` (nanoseconds). -/
def second : Int := 1000000000

/-- The fields of `Connection` that `main.go` reads or writes (the command channel and the
logger carry no state of their own here). `reverseURL` is filled by `setCheckConfig`. -/
structure Connection where
  agentAddress : String
  checkCID : String
  commTimeout : Int
  conn : Option TLSConn
  connAttempts : Nat
  delay : Int
  dialerTimeout : Int
  enabled : Bool
  maxDelay : Int
  metricTimeout : Int
  reverseURL : String
  t : Tomb
deriving DecidableEq, Repr

/-- What `New` does outside the connection it builds: the call of `setCheckConfig`, with
the connection it is called on. -/
inductive Call where
  | setCheckConfig (recv : Connection)
deriving DecidableEq, Repr

/-- The composite literal `Connection{...}` that `New` starts from: every field not named
there has its zero value. -/
def newConnection (cfg : ViperConfig) (k : Constants) : Connection :=
  { agentAddress := ""
    checkCID := cfg.reverseCID
    commTimeout := k.commTimeoutSeconds * second
    conn := none
    connAttempts := 0
    delay := 1 * second
    dialerTimeout := k.dialerTimeoutSeconds * second
    enabled := cfg.reverse
    maxDelay := k.maxDelaySeconds * second
    metricTimeout := k.metricTimeoutSeconds * second
    reverseURL := ""
    t := Tomb.fresh }

/-- The function `New`. `setCheckConfig` is the method of that name (outside the sources
studied): it returns its error and the connection as it leaves it. The second component
lists the calls made. -/
def New (cfg : ViperConfig) (k : Constants)
    (setCheckConfig : Connection → Error × Connection) :
    Except GoError Connection × List Call :=
  let c := newConnection cfg k
  if c.enabled then
    let c1 := { c with agentAddress := stringsReplace cfg.listen "0.0.0.0" "localhost" }
    match setCheckConfig c1 with
    | (some err, _) => (.error err, [Call.setCheckConfig c1])
    | (none, c2) => (.ok c2, [Call.setCheckConfig c1])
  else (.ok c, [])

/-- The method `Stop`. -/
def Connection.Stop (c : Connection) : Except Panic Connection :=
  if !c.enabled then .ok c
  else
    let killed : Except Panic Tomb :=
      if c.t.Alive then c.t.Kill (some (.msg "Shutdown requested")) else .ok c.t
    match killed with
    | .error p => .error p
    | .ok t1 =>
      let c1 := { c with t := t1 }
      match c1.conn with
      | none => .ok c1
      | some k => .ok { c1 with conn := some k.Close.2 }

/-- What happens around a blocked `Start`: another goroutine calls `Stop`, or one of the
tracked tasks returns with `err`. -/
inductive Event where
  | stop
  | taskExit (err : Error)
deriving DecidableEq, Repr

/-- One event applied to the connection. -/
def Connection.step (c : Connection) : Event → Except Panic Connection
  | .stop => c.Stop
  | .taskExit err =>
    match c.t.taskReturn err with
    | .error p => .error p
    | .ok t1 => .ok { c with t := t1 }

/-- How a call of `Start` ends: it returns `err`, it is still blocked in `Wait` when the
events run out, or the program panics. -/
inductive StartOutcome where
  | returned (err : Error) (c : Connection)
  | blocked (c : Connection)
  | panicked (p : Panic)
deriving DecidableEq, Repr

/-- The call `c.t.Wait()` under the events `evs`: it returns the reason as soon as the tomb
is dead. -/
def Connection.waitUnder (c : Connection) : List Event → StartOutcome
  | [] =>
    match c.t.Wait with
    | some err => .returned err c
    | none => .blocked c
  | e :: evs =>
    match c.t.Wait with
    | some err => .returned err c
    | none =>
      match c.step e with
      | .error p => .panicked p
      | .ok c1 => Connection.waitUnder c1 evs

/-- The method `Start`, under the events `evs` that occur while it waits. -/
def Connection.Start (c : Connection) (evs : List Event) : StartOutcome :=
  if !c.enabled then .returned none c
  else
    match c.t.Go with
    | .error p => .panicked p
    | .ok t1 =>
      match t1.Go with
      | .error p => .panicked p
      | .ok t2 => Connection.waitUnder { c with t := t2 } evs

/-- A configuration with the reverse connection switched on, listening on all interfaces. -/
def sampleConfig : ViperConfig :=
  { reverse := true, reverseCID := "/check_bundle/1234", listen := "0.0.0.0:2609",
    checkCreate := false, checkEnableNewMetrics := false, checkBundleID := "",
    checkMetricRefreshTTL := "5m", apiTokenKey := "key", apiTokenApp := "circonus-agent",
    apiURL := "https://api.circonus.com/v2/", debugCGM := false }

/-- Sample values of the timeout constants. -/
def sampleConstants : Constants :=
  { commTimeoutSeconds := 65, dialerTimeoutSeconds := 15, maxDelaySeconds := 60,
    metricTimeoutSeconds := 50 }

/-- A `setCheckConfig` that resolves the broker and succeeds. -/
def resolveOk (c : Connection) : Error × Connection :=
  (none, { c with reverseURL := "https://broker.example:43191/check/abc#secret" })

/-- A `setCheckConfig` that fails. -/
def resolveFails (c : Connection) : Error × Connection :=
  (some (.msg "reverse configuration (check)"), c)

/-- An enabled connection as `New` leaves it, before `Start`. -/
def sampleConnection : Connection :=
  { newConnection sampleConfig sampleConstants with
    agentAddress := "localhost:2609"
    reverseURL := "https://broker.example:43191/check/abc#secret" }

end Reverse

/-! ## Package `check` -/

namespace CheckPkg

/-- Modelled from the spec: the `ReverseConfig` handed to the reverse connection, a type
declared outside the sources studied; per the spec it carries "the broker URL, check
identifier, and TLS trust material the reverse connection needs". -/
structure ReverseConfig where
  reverseURL : String
  checkID : String
  tlsTrust : String
deriving DecidableEq, Repr

/-- The composite literal `ReverseConfig{}`: every field has its zero value. -/
def ReverseConfig.zero : ReverseConfig := { reverseURL := "", checkID := "", tlsTrust := "" }

/-- The check bundle held by a `Check`, as far as `New` reads it. -/
structure CheckBundle where
  CID : String
deriving DecidableEq, Repr

/-- The `api.Config` that `New` fills in for `api.New` (the logger aside). -/
structure APIConfig where
  TokenKey : String
  TokenApp : String
  URL : String
  Debug : Bool
deriving DecidableEq, Repr

/-- A non-nil API client. -/
structure APIClient where
  config : APIConfig
deriving DecidableEq, Repr

/-- The fields of `Check` that `main.go` reads or writes (the mutex and the logger aside). -/
structure Check where
  manage : Bool
  bundle : Option CheckBundle
  metrics : Option (List String)
  refreshTTL : Int
  client : Option APIClient
  revConfig : Option ReverseConfig
deriving DecidableEq, Repr

/-- What `New` does outside the check it builds, in order. -/
inductive Call where
  | apiNew (cfg : APIConfig)
  | setCheck (recv : Check)
  | viperSetCheckBundleID (cid : String)
  | parseDuration (s : String)
  | refreshMetrics (recv : Check)
deriving DecidableEq, Repr

/-- The functions `New` calls that lie outside the sources studied: `api.New`, the methods
`setCheck` and `refreshMetrics` (each returns the check as it leaves it), and
`time.ParseDuration`. -/
structure Env where
  apiNew : APIConfig → Except GoError APIClient
  setCheck : Check → Error × Check
  refreshMetrics : Check → Check
  ParseDuration : String → Except GoError Int

/-- How a call of `New` ends. -/
inductive NewResult where
  | ok (c : Check)
  | error (err : GoError)
  | panicked (p : Panic)
deriving DecidableEq, Repr

/-- The composite literal `Check{...}` that `New` starts from: the NOP check. -/
def nopCheck : Check :=
  { manage := false, bundle := none, metrics := none, refreshTTL := 0, client := none,
    revConfig := none }

/-- The local `needCheck` of `New`. -/
def needCheck (cfg : ViperConfig) : Bool :=
  let isCreate := cfg.checkCreate
  let isManaged := cfg.checkEnableNewMetrics
  let isReverse := cfg.reverse
  let cid := cfg.checkBundleID
  if isReverse || isManaged || (isCreate && cid == "") then true else false

/-- The part of `New` after the API client is in place: `setCheck`, the write of the bundle
id to the global settings, and the set-up of metric management. -/
def newWithClient (env : Env) (cfg : ViperConfig) (c : Check) (calls : List Call) :
    NewResult × ViperConfig × List Call :=
  match env.setCheck c with
  | (some err, _) =>
    (.error (.wrap err "unable to configure check"), cfg, calls ++ [.setCheck c])
  | (none, c1) =>
    match c1.bundle with
    | none => (.panicked ⟨"invalid memory address or nil pointer dereference"⟩, cfg,
        calls ++ [.setCheck c])
    | some b =>
      let cfg1 := { cfg with checkBundleID := b.CID }
      let calls1 := calls ++ [.setCheck c, .viperSetCheckBundleID b.CID]
      if cfg.checkEnableNewMetrics then
        match env.ParseDuration cfg1.checkMetricRefreshTTL with
        | .error err =>
          (.error (.wrap err "parsing check metric refresh TTL"), cfg1,
            calls1 ++ [.parseDuration cfg1.checkMetricRefreshTTL])
        | .ok ttl =>
          let c2 := { c1 with refreshTTL := ttl, manage := cfg.checkEnableNewMetrics }
          (.ok (env.refreshMetrics c2), cfg1,
            calls1 ++ [.parseDuration cfg1.checkMetricRefreshTTL, .refreshMetrics c2])
      else (.ok c1, cfg1, calls1)

/-- The function `New`: the result, the global settings as it leaves them, and the calls it
made. -/
def New (env : Env) (cfg : ViperConfig) (apiClient : Option APIClient) :
    NewResult × ViperConfig × List Call :=
  let c := nopCheck
  if !needCheck cfg then (.ok c, cfg, [])
  else
    match apiClient with
    | some cl => newWithClient env cfg { c with client := some cl } []
    | none =>
      let apiCfg : APIConfig :=
        { TokenKey := cfg.apiTokenKey, TokenApp := cfg.apiTokenApp, URL := cfg.apiURL,
          Debug := cfg.debugCGM }
      match env.apiNew apiCfg with
      | .error err => (.error (.wrap err "creating circonus api client"), cfg, [.apiNew apiCfg])
      | .ok client => newWithClient env cfg { c with client := some client } [.apiNew apiCfg]

/-- The method `GetReverseConfig`: the two results and the check as it leaves it (the mutex
is taken on entry and released on return). -/
def Check.GetReverseConfig (c : Check) : (ReverseConfig × Error) × Check :=
  match c.revConfig with
  | none => ((ReverseConfig.zero, some (.msg "invalid reverse configuration")), c)
  | some rc => ((rc, none), c)

/-- An environment in which the API and the check set-up succeed. -/
def sampleEnv : Env :=
  { apiNew := fun cfg => .ok ⟨cfg⟩
    setCheck := fun c =>
      (none, { c with bundle := some ⟨"/check_bundle/1234"⟩,
                      revConfig := some ⟨"https://broker.example:43191/check/abc", "1234", "ca"⟩ })
    refreshMetrics := fun c => { c with metrics := some [] }
    ParseDuration := fun s => if s = "5m" then .ok 300000000000 else .error (.msg "invalid duration") }

/-- An environment in which the check cannot be configured. -/
def failingEnv : Env :=
  { sampleEnv with setCheck := fun c => (some (.msg "fetching check bundle"), c) }

/-- A check with a reverse configuration. -/
def sampleCheck : Check :=
  { nopCheck with
    bundle := some ⟨"/check_bundle/1234"⟩
    revConfig := some ⟨"https://broker.example:43191/check/abc", "1234", "ca"⟩ }

end CheckPkg

/-! ## Package `generic` (the psutil collectors), file `cpu.go` -/

/-! ### The part of `regexp` that `NewCPUCollector` uses -/

/-- Regular expressions over literals, concatenation, alternation and the two text
anchors: what the pattern of `NewCPUCollector` is made of. -/
inductive Regex where
  | empty
  | lit (c : Char)
  | seq (a b : Regex)
  | alt (a b : Regex)
  | beginText
  | endText
deriving DecidableEq, Repr

namespace Regex

/-- All the ways `r` matches at the current position: the state is whether the position is
the beginning of the text, and the text still to read. -/
def run : Regex → Bool × List Char → List (Bool × List Char)
  | .empty, st => [st]
  | .lit _, (_, []) => []
  | .lit c, (_, x :: xs) => if x = c then [(false, xs)] else []
  | .seq a b, st => (a.run st).flatMap fun st1 => b.run st1
  | .alt a b, st => a.run st ++ b.run st
  | .beginText, (atStart, xs) => if atStart then [(atStart, xs)] else []
  | .endText, (atStart, xs) => if xs = [] then [(atStart, xs)] else []

/-- The expression that matches the word `w`. -/
def str : List Char → Regex
  | [] => .empty
  | c :: cs => .seq (.lit c) (str cs)

/-- The search of `regexp.MatchString`: `r` matches somewhere in `s`. -/
def matchString (r : Regex) (s : List Char) : Bool :=
  (List.range (s.length + 1)).any fun i => !(r.run (i == 0, s.drop i)).isEmpty

end Regex

namespace Generic

/-- The pattern `^(enabled|disabled)$`, compiled. Without the `m` flag, `^` and `$` match at
the beginning and at the end of the text only. -/
def statusPattern : Regex :=
  .seq .beginText (.seq (.alt (Regex.str "enabled".data) (Regex.str "disabled".data)) .endText)

/-- Modelled from the spec: the constant `metricStatusEnabled`, declared outside the
sources studied (the spec does not name it). Its value is the one under which the test
`TestNewLoadCollector` passes: a default status "enabled" makes `metricDefaultActive` true
and "disabled" makes it false. -/
def metricStatusEnabled : String := "enabled"

/-- The method `Error()` of an error: its text. -/
def errorText : GoError → String
  | .errStillAlive => "tomb: still alive"
  | .errDying => "tomb: dying"
  | .errTTLNotExpired => "TTL not expired"
  | .errAlreadyRunning => "already running"
  | .msg text => text
  | .wrap cause text => text ++ ": " ++ errorText cause

/-- The Go call `strings.Contains(s, substr)`. -/
def stringsContains (s substr : String) : Bool := decide (substr.data <:+: s.data)

/-- The Go call `strconv.ParseBool(str)` (the text of its error is shortened). -/
def ParseBool (str : String) : Except GoError Bool :=
  if str = "1" ∨ str = "t" ∨ str = "T" ∨ str = "true" ∨ str = "TRUE" ∨ str = "True" then .ok true
  else if str = "0" ∨ str = "f" ∨ str = "F" ∨ str = "false" ∨ str = "FALSE" ∨ str = "False" then
    .ok false
  else .error (.msg ("strconv.ParseBool: parsing " ++ str ++ ": invalid syntax"))

/-- A Go `map[string]bool`, as the list of its entries, each key at most once. -/
abbrev MetricStatus := List (String × Bool)

/-- The assignment `m[name] = v`. -/
def mapSet (m : MetricStatus) (name : String) (v : Bool) : MetricStatus :=
  (name, v) :: m.filter fun e => e.1 != name

/-- The lookup `v, ok := m[name]`. -/
def mapGet (m : MetricStatus) (name : String) : Option Bool := m.lookup name

/-- A `time.Time`, in nanoseconds from the Unix epoch. -/
abbrev Time := Int

/-- The zero `time.Time`: January 1, year 1, 00:00 UTC. -/
def zeroTime : Time := -62135596800 * 1000000000

/-- The largest `time.Duration`. -/
def maxDuration : Int := 2 ^ 63 - 1

/-- The smallest `time.Duration`. -/
def minDuration : Int := -(2 ^ 63)

/-- The Go call `time.Since(t)` when the clock reads `now`: `now.Sub(t)`, which saturates at
the largest and the smallest duration. -/
def timeSince (now t : Int) : Int :=
  if now - t > maxDuration then maxDuration
  else if now - t < minDuration then minDuration
  else now - t

/-- A `float64`, passed through unread: its bit pattern. -/
abbrev Float64 := Nat

/-- One entry of `cgm.Metrics`. -/
structure Metric where
  name : String
  type : String
  value : Float64
deriving DecidableEq, Repr

/-- The metrics gathered by one collection. -/
abbrev Metrics := List Metric

/-- The `cpu.TimesStat` of gopsutil, as far as `Collect` reads it. -/
structure TimesStat where
  User : Float64
  System : Float64
  Idle : Float64
  Nice : Float64
  Iowait : Float64
  Irq : Float64
  Softirq : Float64
  Steal : Float64
  Guest : Float64
  GuestNice : Float64
  Stolen : Float64
deriving DecidableEq, Repr

/-- The struct `cpuOptions`. -/
structure cpuOptions where
  ID : String
  MetricsEnabled : List String
  MetricsDisabled : List String
  MetricsDefaultStatus : String
  RunTTL : String
  AllCPU : String
deriving DecidableEq, Repr

/-- The struct `CPU`: the fields of the embedded `gencommon` that `cpu.go` reads or writes
(the mutex and the logger aside), and `reportAllCPUs`. -/
structure CPU where
  id : String
  pkgID : String
  metricStatus : MetricStatus
  metricDefaultActive : Bool
  baseTags : List String
  runTTL : Int
  running : Bool
  lastStart : Time
  lastEnd : Time
  reportAllCPUs : Bool
deriving DecidableEq, Repr

/-- What `NewCPUCollector` takes from outside the sources studied: the constants `CPU_NAME`
and `PKG_NAME`, the base tags, `config.LoadConfigFile` (its result for a base name),
`strings.ToLower` (Go lowers every rune by the Unicode case tables) and
`time.ParseDuration`. -/
structure Env where
  CPU_NAME : String
  PKG_NAME : String
  baseTags : List String
  LoadConfigFile : String → Except GoError cpuOptions
  ToLower : String → String
  ParseDuration : String → Except GoError Int

/-- The collector as `NewCPUCollector` sets it up before it loads the configuration. -/
def defaultCPU (env : Env) : CPU :=
  { id := env.CPU_NAME
    pkgID := env.PKG_NAME ++ "." ++ env.CPU_NAME
    metricStatus := []
    metricDefaultActive := true
    baseTags := env.baseTags
    runTTL := 0
    running := false
    lastStart := zeroTime
    lastEnd := zeroTime
    reportAllCPUs := false }

/-- The error of `NewCPUCollector` for a default status that is neither word:
`errors.Errorf("%s invalid metric default status (%s)", c.pkgID, opts.MetricsDefaultStatus)`. -/
def invalidDefaultStatus (c : CPU) (opts : cpuOptions) : GoError :=
  .msg (c.pkgID ++ " invalid metric default status (" ++ opts.MetricsDefaultStatus ++ ")")

/-- The block of `NewCPUCollector` on `report_all_cpus` (lines 66 to 72). -/
def applyAllCPU (c : CPU) (opts : cpuOptions) : Except GoError CPU :=
  if opts.AllCPU ≠ "" then
    match ParseBool opts.AllCPU with
    | .error err => .error (.wrap err (c.pkgID ++ " parsing report_all_cpus"))
    | .ok rpt => .ok { c with reportAllCPUs := rpt }
  else .ok c

/-- The block on `id` (lines 74 to 76). -/
def applyID (c : CPU) (opts : cpuOptions) : CPU :=
  if opts.ID ≠ "" then { c with id := opts.ID } else c

/-- The loop over `metrics_enabled` (lines 78 to 82). -/
def applyMetricsEnabled (c : CPU) (opts : cpuOptions) : CPU :=
  if opts.MetricsEnabled.length > 0 then
    { c with metricStatus :=
        opts.MetricsEnabled.foldl (fun m name => mapSet m name true) c.metricStatus }
  else c

/-- The loop over `metrics_disabled` (lines 83 to 87). -/
def applyMetricsDisabled (c : CPU) (opts : cpuOptions) : CPU :=
  if opts.MetricsDisabled.length > 0 then
    { c with metricStatus :=
        opts.MetricsDisabled.foldl (fun m name => mapSet m name false) c.metricStatus }
  else c

/-- The block on `metrics_default_status` (lines 89 to 95); the error of
`regexp.MatchString` is dropped there, and the pattern compiles. -/
def applyDefaultStatus (env : Env) (c : CPU) (opts : cpuOptions) : Except GoError CPU :=
  if opts.MetricsDefaultStatus ≠ "" then
    if statusPattern.matchString (env.ToLower opts.MetricsDefaultStatus).data then
      .ok { c with metricDefaultActive :=
              decide (env.ToLower opts.MetricsDefaultStatus = metricStatusEnabled) }
    else .error (invalidDefaultStatus c opts)
  else .ok c

/-- The block on `run_ttl` (lines 97 to 103). -/
def applyRunTTL (env : Env) (c : CPU) (opts : cpuOptions) : Except GoError CPU :=
  if opts.RunTTL ≠ "" then
    match env.ParseDuration opts.RunTTL with
    | .error err => .error (.wrap err (c.pkgID ++ " parsing run_ttl"))
    | .ok dur => .ok { c with runTTL := dur }
  else .ok c

/-- The function `NewCPUCollector`: the collector is set up, the configuration file is
loaded, and its options are applied block by block, in the order of the source. -/
def NewCPUCollector (env : Env) (cfgBaseName : String) : Except GoError CPU :=
  let c := defaultCPU env
  match env.LoadConfigFile cfgBaseName with
  | .error err =>
    if stringsContains (errorText err) "no config found matching" then .ok c
    else .error (.wrap err (c.pkgID ++ " config"))
  | .ok opts =>
    match applyAllCPU c opts with
    | .error err => .error err
    | .ok c1 =>
      let c4 := applyMetricsDisabled (applyMetricsEnabled (applyID c1 opts) opts) opts
      match applyDefaultStatus env c4 opts with
      | .error err => .error err
      | .ok c5 => applyRunTTL env c5 opts

/-- What `Collect` takes from outside the sources studied: the two readings of the clock
(in `time.Since` and for `lastStart`), `cpu.Percent` and `cpu.Times` of gopsutil, the
methods `addMetric` and `setStatus` of `gencommon`, and the constant
`metricNameSeparator`. -/
structure CollectEnv where
  nowAtCheck : Time
  nowAtStart : Time
  Percent : Bool → Except GoError (List Float64)
  Times : Bool → Except GoError (List TimesStat)
  addMetric : CPU → Metrics → String → String → String → Float64 → Metrics
  setStatus : CPU → Metrics → Error → CPU
  metricNameSeparator : String

/-- The calls of `Collect` that gather or store metrics, in order. -/
inductive Call where
  | percent (percpu : Bool)
  | times (percpu : Bool)
  | setStatus (metrics : Metrics) (err : Error)
deriving DecidableEq, Repr

/-- The eleven `addMetric` calls for one `TimesStat`; `pre` is empty for the totals and
`fmt.Sprintf("%d%s", idx, metricNameSeparator)` for CPU number `idx`. -/
def addTimes (env : CollectEnv) (c : CPU) (metrics : Metrics) (pre : String)
    (v : TimesStat) : Metrics :=
  let m := env.addMetric c metrics c.id (pre ++ "user") "n" v.User
  let m := env.addMetric c m c.id (pre ++ "system") "n" v.System
  let m := env.addMetric c m c.id (pre ++ "idle") "n" v.Idle
  let m := env.addMetric c m c.id (pre ++ "nice") "n" v.Nice
  let m := env.addMetric c m c.id (pre ++ "iowait") "n" v.Iowait
  let m := env.addMetric c m c.id (pre ++ "irq") "n" v.Irq
  let m := env.addMetric c m c.id (pre ++ "soft_irq") "n" v.Softirq
  let m := env.addMetric c m c.id (pre ++ "steal") "n" v.Steal
  let m := env.addMetric c m c.id (pre ++ "guest") "n" v.Guest
  let m := env.addMetric c m c.id (pre ++ "guest_nice") "n" v.GuestNice
  env.addMetric c m c.id (pre ++ "stolen") "n" v.Stolen

/-- The metrics that `Collect` gathers once it has marked the collector as running. -/
def gather (env : CollectEnv) (c : CPU) : Metrics :=
  let metrics : Metrics := []
  let metrics :=
    match env.Percent c.reportAllCPUs with
    | .error _ => metrics
    | .ok pcts =>
      match !c.reportAllCPUs && pcts.length == 1, pcts with
      | true, pct :: _ => env.addMetric c metrics c.id "used_pct" "n" pct
      | _, _ =>
        pcts.enum.foldl (fun m (p : Nat × Float64) =>
          env.addMetric c m c.id (toString p.1 ++ env.metricNameSeparator ++ "used_pct") "n" p.2)
          metrics
  match env.Times c.reportAllCPUs with
  | .error _ => metrics
  | .ok ts =>
    match !c.reportAllCPUs && ts.length == 1, ts with
    | true, v :: _ => addTimes env c metrics "" v
    | _, _ =>
      ts.enum.foldl (fun m (p : Nat × TimesStat) =>
        addTimes env c m (toString p.1 ++ env.metricNameSeparator) p.2) metrics

/-- The method `Collect`: its error, the collector as it leaves it, and the calls made. The
two nested `if`s on the TTL return under the conjunction of their conditions; `time.Since`
is only evaluated when `runTTL > 0`. -/
def CPU.Collect (env : CollectEnv) (c : CPU) : Error × CPU × List Call :=
  if c.runTTL > 0 ∧ timeSince env.nowAtCheck c.lastEnd < c.runTTL then
    (some .errTTLNotExpired, c, [])
  else if c.running then (some .errAlreadyRunning, c, [])
  else
    let c1 := { c with running := true, lastStart := env.nowAtStart }
    let metrics := gather env c1
    (none, env.setStatus c1 metrics none,
      [.percent c1.reportAllCPUs, .times c1.reportAllCPUs, .setStatus metrics none])

/-- Lower-casing of the ASCII letters, the part of `strings.ToLower` the examples need. -/
def asciiToLower (s : String) : String := String.mk (s.data.map Char.toLower)

/-- A configuration file that enables two metrics, disables one of them again and sets the
default status. -/
def sampleOptions : cpuOptions :=
  { ID := "foo", MetricsEnabled := ["user", "idle"], MetricsDisabled := ["idle", "steal"],
    MetricsDefaultStatus := "Disabled", RunTTL := "5m", AllCPU := "true" }

/-- An environment whose configuration file "cpu" holds `sampleOptions`. -/
def sampleEnv : Env :=
  { CPU_NAME := "cpu"
    PKG_NAME := "builtins.generic"
    baseTags := []
    LoadConfigFile := fun f =>
      if f = "cpu" then .ok sampleOptions else .error (.msg "no config found matching")
    ToLower := asciiToLower
    ParseDuration := fun s =>
      if s = "5m" then .ok 300000000000 else .error (.msg "time: invalid duration") }

/-- The collector that `NewCPUCollector` builds from `sampleOptions`. -/
def sampleCPU : CPU :=
  { id := "foo"
    pkgID := "builtins.generic.cpu"
    metricStatus := [("steal", false), ("idle", false), ("user", true)]
    metricDefaultActive := false
    baseTags := []
    runTTL := 300000000000
    running := false
    lastStart := zeroTime
    lastEnd := zeroTime
    reportAllCPUs := true }

/-- A clock and a gopsutil that reports one total. -/
def sampleCollectEnv : CollectEnv :=
  { nowAtCheck := 1700000000000000000
    nowAtStart := 1700000000000000001
    Percent := fun _ => .ok [42]
    Times := fun _ => .ok [⟨1, 2, 3, 4, 5, 6, 7, 8, 9, 10, 11⟩]
    addMetric := fun _ m pre name type v => m ++ [⟨pre ++ "`" ++ name, type, v⟩]
    setStatus := fun c _ _ => { c with running := false, lastEnd := 1700000000000000002 }
    metricNameSeparator := "`" }

end Generic

/-! # Properties -/

/-! ## `strings.Replace` -/

/-- Skipping `k` characters is scanning from the `k`-th character on. -/
theorem stringsReplaceScan_skip (old new : List Char) :
    ∀ (k : Nat) (s : List Char),
      stringsReplaceScan old new k s = stringsReplaceScan old new 0 (s.drop k) := by
  intro k
  induction k with
  | zero => intro s; simp
  | succ k ih =>
    intro s
    cases s with
    | nil => simp [stringsReplaceScan]
    | cons c cs => simp [stringsReplaceScan, ih cs]

/-- An occurrence of `old` in `u ++ x :: v`, where `x` is not a character of `old`, lies in
`u` or in `v`. -/
theorem separated_by_char {old u v : List Char} {x : Char} (hx : x ∉ old)
    (h : old <:+: u ++ x :: v) : old <:+: u ∨ old <:+: v := by
  obtain ⟨s, t, hst⟩ := h
  rw [List.append_eq_append_iff] at hst
  rcases hst with ⟨a, hu, _⟩ | ⟨c, hso, hxv⟩
  · exact Or.inl ⟨s, a, hu.symm⟩
  · cases c with
    | nil =>
      simp at hso
      exact Or.inl ⟨s, [], by simp [hso]⟩
    | cons y c2 =>
      simp at hxv
      obtain ⟨hy, hv⟩ := hxv
      subst hy
      rw [List.append_eq_append_iff] at hso
      rcases hso with ⟨a, _, ho⟩ | ⟨c3, hs, hc⟩
      · exact absurd (by simp [ho]) hx
      · cases c3 with
        | nil =>
          simp at hc
          exact absurd (by simp [← hc]) hx
        | cons z c4 =>
          simp at hc
          exact Or.inr ⟨c4, t, by simp [hv, hc.2]⟩

/-- An occurrence of `old` in `u ++ new ++ v`, where `new` is not empty and shares no
character with `old`, lies in `u` or in `v`. -/
theorem separated_by_new {old new : List Char} (hold : old ≠ []) (hdis : ∀ x ∈ new, x ∉ old) :
    new ≠ [] → ∀ u v : List Char, old <:+: u ++ new ++ v → old <:+: u ∨ old <:+: v := by
  induction new with
  | nil => intro h; exact absurd rfl h
  | cons x n ih =>
    intro _ u v h
    have h1 : old <:+: u ++ x :: (n ++ v) := by simpa using h
    rcases separated_by_char (hdis x (by simp)) h1 with hu | hnv
    · exact Or.inl hu
    · by_cases hn : n = []
      · subst hn; exact Or.inr (by simpa using hnv)
      · have h2 : old <:+: [] ++ n ++ v := by simpa using hnv
        rcases ih (fun y hy => hdis y (by simp [hy])) hn [] v h2 with h3 | h3
        · exact absurd (List.eq_nil_of_infix_nil h3) hold
        · exact Or.inr h3

/-- A character at which `old` does not start is copied. -/
theorem LeftmostReplaced.cons {old new : List Char} {c : Char} {cs r : List Char}
    (h : LeftmostReplaced old new cs r) (hp : ¬ old <+: c :: cs) :
    LeftmostReplaced old new (c :: cs) (c :: r) := by
  cases h with
  | none _ hno =>
    refine LeftmostReplaced.none _ ?_
    rw [List.infix_cons_iff]
    exact fun h => h.elim hp hno
  | occurrence p rest r2 hleft hrest =>
    have := @LeftmostReplaced.occurrence old new (c :: p) rest r2 (by
      intro hin
      have hin2 : old <:+: c :: (p ++ old.dropLast) := by simpa using hin
      rw [List.infix_cons_iff] at hin2
      rcases hin2 with hpre | hin3
      · apply hp
        refine hpre.trans ?_
        rw [List.prefix_cons_inj, List.append_assoc, List.prefix_append_right_inj]
        exact (List.dropLast_prefix old).trans (List.prefix_append _ _)
      · exact hleft hin3) hrest
    simpa using this

/-- The scan replaces every leftmost, non-overlapping occurrence. -/
theorem stringsReplaceScan_leftmost (old new : List Char) (hold : old ≠ []) :
    ∀ (n : Nat) (s : List Char), s.length = n →
      LeftmostReplaced old new s (stringsReplaceScan old new 0 s) := by
  intro n
  induction n using Nat.strong_induction_on with
  | _ n ih =>
    intro s hs
    cases s with
    | nil =>
      simp only [stringsReplaceScan]
      exact LeftmostReplaced.none _ (fun h => hold (List.eq_nil_of_infix_nil h))
    | cons c cs =>
      by_cases hp : old <+: c :: cs
      · have hpb : old.isPrefixOf (c :: cs) = true := by simpa using hp
        simp only [stringsReplaceScan, hpb, if_true]
        rw [stringsReplaceScan_skip]
        obtain ⟨rest, hrest⟩ := hp
        have hlen : 0 < old.length := List.length_pos.mpr hold
        have hdrop : List.drop (old.length - 1) cs = rest := by
          have : List.drop old.length (c :: cs) = rest := by
            rw [← hrest]; simp
          rw [← this]
          obtain ⟨m, hm⟩ : ∃ m, old.length = m + 1 := ⟨old.length - 1, by omega⟩
          rw [hm]; simp
        rw [hdrop, ← hrest]
        have hlt : rest.length < n := by
          have := congrArg List.length hrest
          simp at this hs
          omega
        have := @LeftmostReplaced.occurrence old new [] rest _ (by
          intro hin
          have := hin.length_le
          simp at this
          omega) (ih rest.length hlt rest rfl)
        simpa using this
      · have hpb : old.isPrefixOf (c :: cs) = false :=
          Bool.eq_false_iff.mpr (by simpa using hp)
        simp only [stringsReplaceScan, hpb]
        have hlt : cs.length < n := by simp at hs; omega
        exact (ih cs.length hlt cs rfl).cons hp

/-- When `new` is not empty and shares no character with `old`, the rewriting holds no
occurrence of `old`. -/
theorem LeftmostReplaced.no_occurrence {old new : List Char} (hold : old ≠ [])
    (hnew : new ≠ []) (hdis : ∀ x ∈ new, x ∉ old) {s r : List Char}
    (h : LeftmostReplaced old new s r) : ¬ old <:+: r := by
  induction h with
  | none s hno => exact hno
  | occurrence p rest r hleft _ ih =>
    intro hin
    rcases separated_by_new hold hdis hnew p r hin with hp | hr
    · exact hleft (hp.trans (List.infix_append' [] p old.dropLast |>.trans (by simp)))
    · exact ih hr

/-- A string without an occurrence is left as it is. -/
theorem LeftmostReplaced.eq_of_no_occurrence {old new : List Char} {s r : List Char}
    (h : LeftmostReplaced old new s r) (hno : ¬ old <:+: s) : r = s := by
  cases h with
  | none _ _ => rfl
  | occurrence p rest r2 _ _ => exact absurd ⟨p, rest, rfl⟩ hno

namespace Reverse

/-- C1: on a connection whose `enabled` flag is false, `Start` returns nil at once, whatever
happens around it, and the connection (its tomb and task count included) is unchanged. -/
theorem Start_disabled_noop (c : Connection) (evs : List Event) (h : c.enabled = false) :
    c.Start evs = .returned none c := by
  simp [Connection.Start, h]

/-- C1 at the sample connection with the feature switched off, while another goroutine calls
`Stop`. -/
theorem Start_disabled_noop_witness :
    ({ sampleConnection with enabled := false } : Connection).Start [.stop] =
      .returned none { sampleConnection with enabled := false } :=
  Start_disabled_noop _ _ rfl

/-- C2, as the code has it: on an enabled connection whose tomb is still alive and tracks no
other task, when `Stop` is called and the reader and processor then return (with any error
but `ErrStillAlive`, which would panic), `Start` returns the error "Shutdown requested"
that `Stop` killed the tomb with; the tomb is dead and holds that reason. -/
theorem Start_returns_shutdown_after_Stop (c : Connection) (e1 e2 : Error)
    (hen : c.enabled = true) (halive : c.t.reason = some .errStillAlive)
    (hnone : c.t.alive = 0) (hdead : c.t.dead = false)
    (h1 : e1 ≠ some .errStillAlive) (h2 : e2 ≠ some .errStillAlive) :
    ∃ c1, c.Start [.stop, .taskExit e1, .taskExit e2] =
        .returned (some (.msg "Shutdown requested")) c1 ∧
      c1.t.reason = some (.msg "Shutdown requested") ∧ c1.t.dead = true ∧ c1.t.alive = 0 := by
  obtain ⟨a, cid, ct, conn, ca, d, dt, en, md, mt, ru, ⟨al, rs, dy, de⟩⟩ := c
  simp only at hen halive hnone hdead
  subst hen halive hnone hdead
  have hk : ∀ (t : Tomb) (e : Error), t.reason = some (.msg "Shutdown requested") →
      e ≠ some .errStillAlive → t.kill e = .ok t := by
    intro t e ht he
    unfold Tomb.kill
    rw [if_neg he, ht]
    by_cases hd : e = some .errDying <;> simp [hd]
  cases conn <;>
    simp [Connection.Start, Tomb.Go, Connection.waitUnder, Tomb.Wait, Connection.step,
      Connection.Stop, Tomb.Alive, Tomb.Err, Tomb.Kill, Tomb.kill, Tomb.taskReturn, hk, h1, h2]

/-- The amended C2 at the sample connection, both tasks returning nil. -/
theorem Start_returns_shutdown_after_Stop_witness :
    ∃ c1, sampleConnection.Start [.stop, .taskExit none, .taskExit none] =
        .returned (some (.msg "Shutdown requested")) c1 ∧
      c1.t.reason = some (.msg "Shutdown requested") ∧ c1.t.dead = true ∧ c1.t.alive = 0 :=
  Start_returns_shutdown_after_Stop sampleConnection none none rfl rfl rfl rfl
    (by decide) (by decide)

/-- C2 as stated fails: the sample connection is enabled, its tomb is alive and no task has
reported an error; `Stop` is called, the reader and the processor both return nil, and
`Start` returns the non-nil error "Shutdown requested", not nil. -/
theorem Start_after_Stop_is_not_nil :
    sampleConnection.enabled = true ∧ sampleConnection.t.Alive = true ∧
    sampleConnection.Start [.stop, .taskExit none, .taskExit none] =
      .returned (some (.msg "Shutdown requested"))
        { sampleConnection with
          t := { alive := 0, reason := some (.msg "Shutdown requested"),
                 dying := true, dead := true } } ∧
    ¬ ∃ c1, sampleConnection.Start [.stop, .taskExit none, .taskExit none] =
      .returned none c1 := by
  refine ⟨rfl, rfl, ?_, ?_⟩
  · decide
  · rintro ⟨c1, h⟩
    revert h
    simp [sampleConnection, newConnection, sampleConfig, Connection.Start, Tomb.Go,
      Connection.waitUnder, Tomb.Wait, Connection.step, Connection.Stop, Tomb.Alive, Tomb.Err,
      Tomb.Kill, Tomb.kill, Tomb.taskReturn, Tomb.fresh]

/-- C3: `Stop` never panics and is idempotent on every connection state: a second `Stop`
returns the very state the first one left. On an enabled connection the tomb is no longer
alive after the first call (so the second call does not kill it again and its reason
stays), and a transport that is present is closed after the first call and stays so. -/
theorem Stop_idempotent (c : Connection) :
    ∃ c1, c.Stop = .ok c1 ∧ c1.Stop = .ok c1 ∧
      (c.enabled = true → c1.t.Alive = false) ∧
      (c.enabled = true → ∀ k, c1.conn = some k → k.closed = true) ∧
      (c.enabled = false → c1 = c) := by
  obtain ⟨a, cid, ct, conn, ca, d, dt, en, md, mt, ru, ⟨al, rs, dy, de⟩⟩ := c
  cases en
  · exact ⟨_, rfl, rfl, by simp, by simp, fun _ => rfl⟩
  · by_cases hr : rs = some .errStillAlive
    · subst hr
      cases conn <;>
        simp [Connection.Stop, Tomb.Alive, Tomb.Err, Tomb.Kill, Tomb.kill, TLSConn.Close]
    · cases conn <;>
        simp [Connection.Stop, Tomb.Alive, Tomb.Err, Tomb.Kill, Tomb.kill, TLSConn.Close, hr]

/-- The two ways `New` ends at the sample configuration when the feature is enabled, and
what it returns when it is disabled. -/
theorem New_examples :
    New sampleConfig sampleConstants resolveOk =
      (.ok sampleConnection,
        [Call.setCheckConfig { newConnection sampleConfig sampleConstants with
          agentAddress := "localhost:2609" }]) ∧
    (New sampleConfig sampleConstants resolveFails).1 =
      .error (.msg "reverse configuration (check)") ∧
    New { sampleConfig with reverse := false } sampleConstants resolveFails =
      (.ok (newConnection { sampleConfig with reverse := false } sampleConstants), []) := by
  refine ⟨?_, ?_, ?_⟩ <;> rfl

/-- What `New` does when the reverse feature is enabled. -/
theorem New_enabled (cfg : ViperConfig) (k : Constants)
    (setCheckConfig : Connection → Error × Connection) (h : cfg.reverse = true) :
    New cfg k setCheckConfig =
      match setCheckConfig { newConnection cfg k with
          agentAddress := stringsReplace cfg.listen "0.0.0.0" "localhost" } with
      | (some err, _) =>
        (.error err, [Call.setCheckConfig { newConnection cfg k with
          agentAddress := stringsReplace cfg.listen "0.0.0.0" "localhost" }])
      | (none, c2) =>
        (.ok c2, [Call.setCheckConfig { newConnection cfg k with
          agentAddress := stringsReplace cfg.listen "0.0.0.0" "localhost" }]) := by
  have he : (newConnection cfg k).enabled = true := h
  simp only [New, he, if_true]

/-- C4: `New` fails exactly when the reverse feature is enabled and `setCheckConfig`, called
on the connection with its agent address set, fails; it then returns that very error (and
no connection). With the feature disabled it succeeds with the initial connection, whose
`agentAddress` is still empty, and makes no call at all. -/
theorem New_fails_iff (cfg : ViperConfig) (k : Constants)
    (setCheckConfig : Connection → Error × Connection) :
    (∀ e, (New cfg k setCheckConfig).1 = .error e ↔
        (cfg.reverse = true ∧
          (setCheckConfig { newConnection cfg k with
              agentAddress := stringsReplace cfg.listen "0.0.0.0" "localhost" }).1 = some e)) ∧
    (cfg.reverse = true → (New cfg k setCheckConfig).2 =
      [Call.setCheckConfig { newConnection cfg k with
        agentAddress := stringsReplace cfg.listen "0.0.0.0" "localhost" }]) ∧
    (cfg.reverse = false →
      New cfg k setCheckConfig = (.ok (newConnection cfg k), []) ∧
      (newConnection cfg k).agentAddress = "" ∧ (newConnection cfg k).enabled = false) := by
  refine ⟨?_, ?_, ?_⟩
  · intro e
    cases hrev : cfg.reverse
    · simp [New, newConnection, hrev]
    · rcases hs : setCheckConfig { newConnection cfg k with
          agentAddress := stringsReplace cfg.listen "0.0.0.0" "localhost" } with ⟨err, c2⟩
      have hs1 : setCheckConfig { newConnection cfg k with
          agentAddress := stringsReplace cfg.listen "0.0.0.0" "localhost" } = (err, c2) := hs
      cases err <;> simp [New, newConnection, hrev] at hs1 ⊢ <;> simp [hs1]
  · intro hrev
    rcases hs : setCheckConfig { newConnection cfg k with
        agentAddress := stringsReplace cfg.listen "0.0.0.0" "localhost" } with ⟨err, c2⟩
    cases err <;> simp [New, newConnection, hrev] at hs ⊢ <;> simp [hs]
  · intro hrev
    simp [New, newConnection, hrev]

/-- C10: when the reverse feature is enabled, the agent address that `New` computes, and
with which it calls `setCheckConfig`, is the listen address with every leftmost,
non-overlapping occurrence of "0.0.0.0" replaced by "localhost"; it holds no occurrence of
"0.0.0.0"; and it is the listen address itself when that holds none. It is the
`agentAddress` of the connection `New` returns whenever `setCheckConfig` leaves that
field alone. -/
theorem New_agentAddress_loopback (cfg : ViperConfig) (k : Constants)
    (setCheckConfig : Connection → Error × Connection) (hen : cfg.reverse = true) :
    (New cfg k setCheckConfig).2 =
      [Call.setCheckConfig { newConnection cfg k with
        agentAddress := stringsReplace cfg.listen "0.0.0.0" "localhost" }] ∧
    LeftmostReplaced "0.0.0.0".data "localhost".data cfg.listen.data
      (stringsReplace cfg.listen "0.0.0.0" "localhost").data ∧
    ¬ "0.0.0.0".data <:+: (stringsReplace cfg.listen "0.0.0.0" "localhost").data ∧
    (¬ "0.0.0.0".data <:+: cfg.listen.data →
      stringsReplace cfg.listen "0.0.0.0" "localhost" = cfg.listen) ∧
    (∀ c, (New cfg k setCheckConfig).1 = .ok c →
      (∀ c0, (setCheckConfig c0).2.agentAddress = c0.agentAddress) →
      c.agentAddress = stringsReplace cfg.listen "0.0.0.0" "localhost") := by
  have hold : "0.0.0.0".data ≠ [] := by decide
  have hdata : (stringsReplace cfg.listen "0.0.0.0" "localhost").data =
      stringsReplaceScan "0.0.0.0".data "localhost".data 0 cfg.listen.data := by
    rw [stringsReplace, if_neg hold]
  have hrep := stringsReplaceScan_leftmost "0.0.0.0".data "localhost".data hold
    cfg.listen.data.length cfg.listen.data rfl
  rw [← hdata] at hrep
  refine ⟨?_, hrep, hrep.no_occurrence hold (by decide) (by decide),
    fun hno => String.ext (hrep.eq_of_no_occurrence hno), ?_⟩
  · rw [New_enabled cfg k setCheckConfig hen]
    rcases setCheckConfig { newConnection cfg k with
        agentAddress := stringsReplace cfg.listen "0.0.0.0" "localhost" } with ⟨err, c2⟩
    cases err <;> rfl
  · intro c hnew hkeep
    have hk := hkeep { newConnection cfg k with
        agentAddress := stringsReplace cfg.listen "0.0.0.0" "localhost" }
    rw [New_enabled cfg k setCheckConfig hen] at hnew
    generalize setCheckConfig { newConnection cfg k with
        agentAddress := stringsReplace cfg.listen "0.0.0.0" "localhost" } = r at hnew hk
    obtain ⟨err, c2⟩ := r
    cases err with
    | some e => simp at hnew
    | none =>
      simp at hnew
      rw [← hnew]; exact hk

/-- C10 at the sample configuration, which listens on "0.0.0.0:2609": the address is
"localhost:2609". -/
theorem New_agentAddress_loopback_witness :
    stringsReplace sampleConfig.listen "0.0.0.0" "localhost" = "localhost:2609" ∧
    (New sampleConfig sampleConstants resolveOk).1 = .ok sampleConnection ∧
    ¬ "0.0.0.0".data <:+: (stringsReplace sampleConfig.listen "0.0.0.0" "localhost").data ∧
    sampleConnection.agentAddress = stringsReplace sampleConfig.listen "0.0.0.0" "localhost" :=
  ⟨by decide, rfl,
    (New_agentAddress_loopback sampleConfig sampleConstants resolveOk rfl).2.2.1,
    (New_agentAddress_loopback sampleConfig sampleConstants resolveOk rfl).2.2.2.2
      sampleConnection rfl (fun _ => rfl)⟩

end Reverse

namespace CheckPkg

/-- C8: `GetReverseConfig` returns the error "invalid reverse configuration" together with
the empty `ReverseConfig` exactly when the stored `revConfig` is nil, and it returns an error
at all exactly then; otherwise it returns the stored configuration and no error. In both
cases the check is unchanged. -/
theorem GetReverseConfig_spec (c : Check) :
    (c.GetReverseConfig.1 = (ReverseConfig.zero, some (.msg "invalid reverse configuration")) ↔
        c.revConfig = none) ∧
    (c.GetReverseConfig.1.2 ≠ none ↔ c.revConfig = none) ∧
    (∀ rc, c.revConfig = some rc → c.GetReverseConfig.1 = (rc, none)) ∧
    c.GetReverseConfig.2 = c := by
  cases h : c.revConfig <;> simp [Check.GetReverseConfig, h]

/-- The sample check hands out its reverse configuration, the NOP check does not. -/
theorem GetReverseConfig_examples :
    sampleCheck.GetReverseConfig =
      ((⟨"https://broker.example:43191/check/abc", "1234", "ca"⟩, none), sampleCheck) ∧
    nopCheck.GetReverseConfig =
      ((ReverseConfig.zero, some (.msg "invalid reverse configuration")), nopCheck) := by
  decide

/-- With reverse on and no client supplied, `New` creates the client and configures the
check, and returns the configured check, or the wrapped error of `setCheck`; with every
feature off it returns the NOP check at once. -/
theorem New_check_examples :
    (New sampleEnv Reverse.sampleConfig none).2.2 =
      [Call.apiNew ⟨"key", "circonus-agent", "https://api.circonus.com/v2/", false⟩,
        Call.setCheck { nopCheck with
          client := some (APIClient.mk
            ⟨"key", "circonus-agent", "https://api.circonus.com/v2/", false⟩) },
        Call.viperSetCheckBundleID "/check_bundle/1234"] ∧
    New sampleEnv { Reverse.sampleConfig with reverse := false } none =
      (.ok nopCheck, { Reverse.sampleConfig with reverse := false }, []) ∧
    (New sampleEnv Reverse.sampleConfig none).1 =
      .ok { nopCheck with
        bundle := some ⟨"/check_bundle/1234"⟩
        client := some (APIClient.mk
          ⟨"key", "circonus-agent", "https://api.circonus.com/v2/", false⟩)
        revConfig := some ⟨"https://broker.example:43191/check/abc", "1234", "ca"⟩ } ∧
    (New failingEnv Reverse.sampleConfig none).1 =
      .error (.wrap (.msg "fetching check bundle") "unable to configure check") := by
  decide

/-- Whatever `setCheck` and the later steps do, the part of `New` that follows the client
set-up starts by calling `setCheck` on the check it was given. -/
theorem newWithClient_calls (env : Env) (cfg : ViperConfig) (c : Check) (calls : List Call) :
    ∃ rest, (newWithClient env cfg c calls).2.2 = calls ++ Call.setCheck c :: rest := by
  unfold newWithClient
  rcases env.setCheck c with ⟨err, c1⟩
  cases err with
  | some e => exact ⟨[], rfl⟩
  | none =>
    cases hb : c1.bundle with
    | none => exact ⟨[], by simp [hb]⟩
    | some b =>
      cases hm : cfg.checkEnableNewMetrics with
      | false => exact ⟨[.viperSetCheckBundleID b.CID], by simp [hb, hm]⟩
      | true =>
        cases hd : env.ParseDuration cfg.checkMetricRefreshTTL with
        | error e => exact ⟨_, by simp [hb, hm, hd]; rfl⟩
        | ok ttl => exact ⟨_, by simp [hb, hm, hd]; rfl⟩

/-- The local `needCheck` is false exactly for the settings that ask for no check. -/
theorem needCheck_eq_false_iff (cfg : ViperConfig) :
    needCheck cfg = false ↔
      (cfg.reverse = false ∧ cfg.checkEnableNewMetrics = false ∧
        ¬ (cfg.checkCreate = true ∧ cfg.checkBundleID = "")) := by
  unfold needCheck
  cases cfg.reverse <;> cases cfg.checkEnableNewMetrics <;> cases cfg.checkCreate <;> simp

/-- When a check is needed and an API client is in place (the one supplied, or the one
`api.New` returned), `New` is what follows the client set-up, run on the check that holds
the client. -/
theorem New_needed_eq (env : Env) (cfg : ViperConfig) (apiClient : Option APIClient)
    (cl : APIClient) (hn : needCheck cfg = true)
    (hcl : apiClient = some cl ∨ (apiClient = none ∧
      env.apiNew ⟨cfg.apiTokenKey, cfg.apiTokenApp, cfg.apiURL, cfg.debugCGM⟩ = .ok cl)) :
    ∃ calls, New env cfg apiClient =
      newWithClient env cfg { nopCheck with client := some cl } calls := by
  rcases hcl with h | ⟨h, ha⟩
  · subst h
    exact ⟨[], by simp [New, hn]⟩
  · subst h
    exact ⟨[Call.apiNew ⟨cfg.apiTokenKey, cfg.apiTokenApp, cfg.apiURL, cfg.debugCGM⟩],
      by simp [New, hn, ha]⟩

/-- What follows the client set-up returns: the wrapped error of `setCheck`; a panic when
`setCheck` left no bundle; otherwise the bundle id is written to the settings and, with
management off, the check as `setCheck` left it, with management on, the wrapped error of
`ParseDuration` or the check with its TTL and `manage` set, after `refreshMetrics`. -/
theorem newWithClient_result (env : Env) (cfg : ViperConfig) (c : Check) (calls : List Call) :
    (∀ err c1, env.setCheck c = (some err, c1) →
      (newWithClient env cfg c calls).1 = .error (.wrap err "unable to configure check") ∧
      (newWithClient env cfg c calls).2.1 = cfg) ∧
    (∀ c1, env.setCheck c = (none, c1) → c1.bundle = none →
      (newWithClient env cfg c calls).1 =
        .panicked ⟨"invalid memory address or nil pointer dereference"⟩) ∧
    (∀ c1 b, env.setCheck c = (none, c1) → c1.bundle = some b →
      (newWithClient env cfg c calls).2.1 = { cfg with checkBundleID := b.CID } ∧
      (cfg.checkEnableNewMetrics = false → (newWithClient env cfg c calls).1 = .ok c1) ∧
      (cfg.checkEnableNewMetrics = true → ∀ e,
        env.ParseDuration cfg.checkMetricRefreshTTL = .error e →
        (newWithClient env cfg c calls).1 =
          .error (.wrap e "parsing check metric refresh TTL")) ∧
      (cfg.checkEnableNewMetrics = true → ∀ ttl,
        env.ParseDuration cfg.checkMetricRefreshTTL = .ok ttl →
        (newWithClient env cfg c calls).1 =
          .ok (env.refreshMetrics { c1 with refreshTTL := ttl, manage := true }))) := by
  refine ⟨?_, ?_, ?_⟩
  · intro err c1 hs
    simp [newWithClient, hs]
  · intro c1 hs hb
    simp [newWithClient, hs, hb]
  · intro c1 b hs hb
    refine ⟨?_, ?_, ?_, ?_⟩
    · cases hm : cfg.checkEnableNewMetrics with
      | false => simp [newWithClient, hs, hb, hm]
      | true =>
        cases hd : env.ParseDuration cfg.checkMetricRefreshTTL <;>
          simp [newWithClient, hs, hb, hm, hd]
    · intro hm
      simp [newWithClient, hs, hb, hm]
    · intro hm e hd
      simp [newWithClient, hs, hb, hm, hd]
    · intro hm ttl hd
      simp [newWithClient, hs, hb, hm, hd]

/-- C9: no check is needed exactly when reverse is off, new-metric management is off, and
it is not the case that check creation is on with an empty bundle id. Then, and only then,
`New` returns the NOP check and no error, leaves the settings alone and makes no call.
When a check is needed, `New` first puts an API client in place (the one supplied, or the
one `api.New` returns, whose failure is returned wrapped) and then calls `setCheck` on the
check that holds it, and what `New` returns is decided by that call: the error of `setCheck`
wrapped as "unable to configure check" with the settings untouched; a nil-pointer panic when
`setCheck` left no bundle; otherwise the bundle id is written to the settings and `New`
returns, with management off, the check as `setCheck` left it (which has a bundle, so it is
not the NOP check), and with management on, the wrapped error of `ParseDuration` or the
check with `refreshTTL` and `manage` set, after `refreshMetrics`. -/
theorem New_nop_iff_no_check_needed (env : Env) (cfg : ViperConfig)
    (apiClient : Option APIClient) :
    (needCheck cfg = false ↔
      (cfg.reverse = false ∧ cfg.checkEnableNewMetrics = false ∧
        ¬ (cfg.checkCreate = true ∧ cfg.checkBundleID = ""))) ∧
    (New env cfg apiClient = (.ok nopCheck, cfg, []) ↔ needCheck cfg = false) ∧
    (needCheck cfg = false → (New env cfg apiClient).2.2 = []) ∧
    (needCheck cfg = true → ∀ cl, apiClient = some cl →
      ∃ rest, (New env cfg apiClient).2.2 =
        Call.setCheck { nopCheck with client := some cl } :: rest) ∧
    (needCheck cfg = true → apiClient = none → ∀ cl,
      env.apiNew ⟨cfg.apiTokenKey, cfg.apiTokenApp, cfg.apiURL, cfg.debugCGM⟩ = .ok cl →
      ∃ rest, (New env cfg apiClient).2.2 =
        Call.apiNew ⟨cfg.apiTokenKey, cfg.apiTokenApp, cfg.apiURL, cfg.debugCGM⟩ ::
          Call.setCheck { nopCheck with client := some cl } :: rest) ∧
    (needCheck cfg = true → apiClient = none → ∀ err,
      env.apiNew ⟨cfg.apiTokenKey, cfg.apiTokenApp, cfg.apiURL, cfg.debugCGM⟩ = .error err →
      New env cfg apiClient =
        (.error (.wrap err "creating circonus api client"), cfg,
          [Call.apiNew ⟨cfg.apiTokenKey, cfg.apiTokenApp, cfg.apiURL, cfg.debugCGM⟩])) ∧
    (needCheck cfg = true → ∀ cl,
      (apiClient = some cl ∨ (apiClient = none ∧
        env.apiNew ⟨cfg.apiTokenKey, cfg.apiTokenApp, cfg.apiURL, cfg.debugCGM⟩ = .ok cl)) →
      (∀ err c1, env.setCheck { nopCheck with client := some cl } = (some err, c1) →
        (New env cfg apiClient).1 = .error (.wrap err "unable to configure check") ∧
        (New env cfg apiClient).2.1 = cfg) ∧
      (∀ c1, env.setCheck { nopCheck with client := some cl } = (none, c1) →
        c1.bundle = none →
        (New env cfg apiClient).1 =
          .panicked ⟨"invalid memory address or nil pointer dereference"⟩) ∧
      (∀ c1 b, env.setCheck { nopCheck with client := some cl } = (none, c1) →
        c1.bundle = some b →
        (New env cfg apiClient).2.1 = { cfg with checkBundleID := b.CID } ∧
        (cfg.checkEnableNewMetrics = false →
          (New env cfg apiClient).1 = .ok c1 ∧ (New env cfg apiClient).1 ≠ .ok nopCheck) ∧
        (cfg.checkEnableNewMetrics = true → ∀ e,
          env.ParseDuration cfg.checkMetricRefreshTTL = .error e →
          (New env cfg apiClient).1 = .error (.wrap e "parsing check metric refresh TTL")) ∧
        (cfg.checkEnableNewMetrics = true → ∀ ttl,
          env.ParseDuration cfg.checkMetricRefreshTTL = .ok ttl →
          (New env cfg apiClient).1 =
            .ok (env.refreshMetrics { c1 with refreshTTL := ttl, manage := true })))) := by
  refine ⟨needCheck_eq_false_iff cfg, ?_, ?_, ?_, ?_, ?_, ?_⟩
  rotate_right
  · intro hn cl hcl
    obtain ⟨calls, hnew⟩ := New_needed_eq env cfg apiClient cl hn hcl
    obtain ⟨r1, r2, r3⟩ := newWithClient_result env cfg { nopCheck with client := some cl } calls
    rw [hnew]
    refine ⟨r1, r2, fun c1 b hs hb => ?_⟩
    obtain ⟨q1, q2, q3, q4⟩ := r3 c1 b hs hb
    refine ⟨q1, fun hm => ⟨q2 hm, ?_⟩, q3, q4⟩
    rw [q2 hm]
    intro hnop
    have hc : c1 = nopCheck := by simpa using hnop
    rw [hc] at hb
    simp [nopCheck] at hb
  · constructor
    · intro h
      cases hn : needCheck cfg with
      | false => rfl
      | true =>
        exfalso
        have hcalls : (New env cfg apiClient).2.2 = [] := by rw [h]
        cases apiClient with
        | some cl =>
          obtain ⟨rest, hr⟩ := newWithClient_calls env cfg { nopCheck with client := some cl } []
          simp [New, hn, hr] at hcalls
        | none =>
          cases ha : env.apiNew ⟨cfg.apiTokenKey, cfg.apiTokenApp, cfg.apiURL, cfg.debugCGM⟩ with
          | error e => simp [New, hn, ha] at hcalls
          | ok cl =>
            obtain ⟨rest, hr⟩ := newWithClient_calls env cfg { nopCheck with client := some cl }
              [Call.apiNew ⟨cfg.apiTokenKey, cfg.apiTokenApp, cfg.apiURL, cfg.debugCGM⟩]
            simp [New, hn, ha, hr] at hcalls
    · intro hn
      simp [New, hn]
  · intro hn
    simp [New, hn]
  · intro hn cl hcl
    subst hcl
    obtain ⟨rest, hr⟩ := newWithClient_calls env cfg { nopCheck with client := some cl } []
    exact ⟨rest, by simp [New, hn, hr]⟩
  · intro hn hnone cl ha
    subst hnone
    obtain ⟨rest, hr⟩ := newWithClient_calls env cfg { nopCheck with client := some cl }
      [Call.apiNew ⟨cfg.apiTokenKey, cfg.apiTokenApp, cfg.apiURL, cfg.debugCGM⟩]
    exact ⟨rest, by simp [New, hn, ha, hr]⟩
  · intro hn hnone err ha
    subst hnone
    simp [New, hn, ha]

end CheckPkg

/-! ## The pattern of the default status -/

/-- The expression of a word matches exactly where the word starts, and reads it. -/
theorem Regex.run_str (w : List Char) : ∀ (b : Bool) (xs : List Char),
    (Regex.str w).run (b, xs) =
      if w.isPrefixOf xs then [(b && w.isEmpty, xs.drop w.length)] else [] := by
  induction w with
  | nil => intro b xs; simp [Regex.str, Regex.run]
  | cons c cs ih =>
    intro b xs
    cases xs with
    | nil => simp [Regex.str, Regex.run]
    | cons x xs =>
      by_cases hx : x = c
      · subst hx
        simp [Regex.str, Regex.run, ih]
      · have hx2 : ¬ c = x := fun h => hx h.symm
        simp [Regex.str, Regex.run, hx, hx2]

/-- A word followed by the end of the text matches exactly the word. -/
theorem Regex.str_exact (w xs : List Char) (b : Bool) :
    (((Regex.str w).run (b, xs)).flatMap fun st1 =>
        if st1.2 = [] then [(st1.1, st1.2)] else []) ≠ [] ↔ xs = w := by
  rw [Regex.run_str]
  by_cases hp : w <+: xs
  · have hpb : w.isPrefixOf xs = true := by simpa using hp
    obtain ⟨t, rfl⟩ := hp
    simp [hpb, Regex.run]
  · have hpb : w.isPrefixOf xs = false := Bool.eq_false_iff.mpr (by simpa using hp)
    simp [hpb]
    rintro rfl
    exact hp (List.prefix_refl _)

/-- The anchored alternative of two words matches, at a position, exactly when the position
is the beginning of the text and the text is one of the words. -/
theorem Regex.anchored_run (w1 w2 xs : List Char) (b : Bool) :
    (Regex.seq .beginText (.seq (.alt (Regex.str w1) (Regex.str w2)) .endText)).run (b, xs)
        ≠ [] ↔
      b = true ∧ (xs = w1 ∨ xs = w2) := by
  have h1 := Regex.str_exact w1 xs b
  have h2 := Regex.str_exact w2 xs b
  cases b
  · simp [Regex.run]
  · simp only [Regex.run, if_true, List.flatMap_cons, List.flatMap_nil,
      List.append_nil, List.flatMap_append, true_and]
    rw [← h1, ← h2]
    simp only [ne_eq, List.append_eq_nil, not_and_or]

/-- The pattern of `NewCPUCollector` matches in `s` exactly when `s` is one of the two words. -/
theorem Generic.statusPattern_matchString (s : List Char) :
    Generic.statusPattern.matchString s = true ↔ s = "enabled".data ∨ s = "disabled".data := by
  have hrun := fun (b : Bool) (xs : List Char) =>
    Regex.anchored_run "enabled".data "disabled".data xs b
  simp only [Regex.matchString, List.any_eq_true, List.mem_range, Bool.not_eq_true',
    List.isEmpty_eq_false]
  constructor
  · rintro ⟨i, _, hi⟩
    have h := (hrun (i == 0) (s.drop i)).mp (by
      intro h0
      rw [show Generic.statusPattern = Regex.seq .beginText (.seq (.alt (Regex.str "enabled".data)
        (Regex.str "disabled".data)) .endText) from rfl, h0] at hi
      simp at hi)
    have hi0 : i = 0 := by simpa using h.1
    subst hi0
    simpa using h.2
  · intro h
    refine ⟨0, by omega, ?_⟩
    have h2 := (hrun true s).mpr ⟨rfl, h⟩
    cases hr : Generic.statusPattern.run (0 == 0, List.drop 0 s) with
    | nil => exact absurd hr h2
    | cons a t => exact List.cons_ne_nil _ _

namespace Generic

/-- A map read after an assignment. -/
theorem mapGet_mapSet (m : MetricStatus) (k x : String) (v : Bool) :
    mapGet (mapSet m k v) x = if x = k then some v else mapGet m x := by
  have hfilter : ∀ l : MetricStatus, x ≠ k →
      List.lookup x (l.filter fun e => e.1 != k) = List.lookup x l := by
    intro l hx
    induction l with
    | nil => rfl
    | cons e l ih =>
      obtain ⟨a, b⟩ := e
      by_cases ha : a = k
      · subst ha
        have hxa : (x == a) = false := by simpa using hx
        simp [List.filter, List.lookup, hxa, ih]
      · have hne : (a != k) = true := by simpa using ha
        rw [List.filter_cons]
        by_cases hxa : x = a
        · subst hxa
          simp [hne, List.lookup]
        · have hxa2 : (x == a) = false := by simpa using hxa
          simp [hne, List.lookup, hxa2, ih]
  unfold mapGet mapSet
  by_cases hx : x = k
  · subst hx; simp [List.lookup]
  · have hxk : (x == k) = false := by simpa using hx
    simp [List.lookup, hxk, hx, hfilter _ hx]

/-- A map read after the loop that assigns `v` to every name of a list. -/
theorem mapGet_foldl_mapSet (names : List String) (v : Bool) (x : String) :
    ∀ m : MetricStatus,
      mapGet (names.foldl (fun m name => mapSet m name v) m) x =
        if x ∈ names then some v else mapGet m x := by
  induction names with
  | nil => intro m; simp
  | cons n ns ih =>
    intro m
    rw [List.foldl_cons, ih, mapGet_mapSet]
    by_cases h1 : x ∈ ns
    · simp [h1]
    · by_cases h2 : x = n
      · simp [h2]
      · simp [h1, h2]

/-- The block on `report_all_cpus` leaves the metric settings alone. -/
theorem applyAllCPU_ok {c c1 : CPU} {opts : cpuOptions} (h : applyAllCPU c opts = .ok c1) :
    c1.metricStatus = c.metricStatus ∧ c1.metricDefaultActive = c.metricDefaultActive ∧
      c1.pkgID = c.pkgID := by
  unfold applyAllCPU at h
  split at h
  · split at h
    · simp at h
    · simp at h; subst h; exact ⟨rfl, rfl, rfl⟩
  · simp at h; subst h; exact ⟨rfl, rfl, rfl⟩

/-- The block on `id` leaves the metric settings alone. -/
theorem applyID_fields (c : CPU) (opts : cpuOptions) :
    (applyID c opts).metricStatus = c.metricStatus ∧
      (applyID c opts).metricDefaultActive = c.metricDefaultActive ∧
      (applyID c opts).pkgID = c.pkgID := by
  unfold applyID
  split <;> exact ⟨rfl, rfl, rfl⟩

/-- The loop over `metrics_enabled` assigns true to each of its names, in order. -/
theorem applyMetricsEnabled_fields (c : CPU) (opts : cpuOptions) :
    (applyMetricsEnabled c opts).metricStatus =
        opts.MetricsEnabled.foldl (fun m name => mapSet m name true) c.metricStatus ∧
      (applyMetricsEnabled c opts).metricDefaultActive = c.metricDefaultActive ∧
      (applyMetricsEnabled c opts).pkgID = c.pkgID := by
  unfold applyMetricsEnabled
  split
  · exact ⟨rfl, rfl, rfl⟩
  · rename_i h
    have hnil : opts.MetricsEnabled = [] := List.length_eq_zero.mp (by omega)
    rw [hnil]; exact ⟨rfl, rfl, rfl⟩

/-- The loop over `metrics_disabled` assigns false to each of its names, in order. -/
theorem applyMetricsDisabled_fields (c : CPU) (opts : cpuOptions) :
    (applyMetricsDisabled c opts).metricStatus =
        opts.MetricsDisabled.foldl (fun m name => mapSet m name false) c.metricStatus ∧
      (applyMetricsDisabled c opts).metricDefaultActive = c.metricDefaultActive ∧
      (applyMetricsDisabled c opts).pkgID = c.pkgID := by
  unfold applyMetricsDisabled
  split
  · exact ⟨rfl, rfl, rfl⟩
  · rename_i h
    have hnil : opts.MetricsDisabled = [] := List.length_eq_zero.mp (by omega)
    rw [hnil]; exact ⟨rfl, rfl, rfl⟩

/-- The block on `metrics_default_status` succeeds exactly when the status is empty or its
lower-cased form matches the pattern, and what it then sets. -/
theorem applyDefaultStatus_ok {env : Env} {c c5 : CPU} {opts : cpuOptions}
    (h : applyDefaultStatus env c opts = .ok c5) :
    c5.metricStatus = c.metricStatus ∧
    (opts.MetricsDefaultStatus = "" → c5.metricDefaultActive = c.metricDefaultActive) ∧
    (opts.MetricsDefaultStatus ≠ "" →
      statusPattern.matchString (env.ToLower opts.MetricsDefaultStatus).data = true ∧
      c5.metricDefaultActive =
        decide (env.ToLower opts.MetricsDefaultStatus = metricStatusEnabled)) := by
  unfold applyDefaultStatus at h
  split at h
  · rename_i hne
    split at h
    · rename_i hm
      simp at h; subst h
      exact ⟨rfl, fun he => absurd he hne, fun _ => ⟨hm, rfl⟩⟩
    · simp at h
  · rename_i he
    simp at h; subst h
    exact ⟨rfl, fun _ => rfl, fun hne => absurd hne he⟩

/-- The block on `run_ttl` leaves the metric settings alone. -/
theorem applyRunTTL_ok {env : Env} {c c6 : CPU} {opts : cpuOptions}
    (h : applyRunTTL env c opts = .ok c6) :
    c6.metricStatus = c.metricStatus ∧ c6.metricDefaultActive = c.metricDefaultActive := by
  unfold applyRunTTL at h
  split at h
  · split at h
    · simp at h
    · simp at h; subst h; exact ⟨rfl, rfl⟩
  · simp at h; subst h; exact ⟨rfl, rfl⟩

/-- What a successful `NewCPUCollector` has done with a loaded configuration. -/
theorem NewCPUCollector_ok_inv (env : Env) (f : String) (opts : cpuOptions) (c : CPU)
    (hload : env.LoadConfigFile f = .ok opts) (hok : NewCPUCollector env f = .ok c) :
    c.metricStatus =
      opts.MetricsDisabled.foldl (fun m name => mapSet m name false)
        (opts.MetricsEnabled.foldl (fun m name => mapSet m name true) []) ∧
    (opts.MetricsDefaultStatus = "" → c.metricDefaultActive = true) ∧
    (opts.MetricsDefaultStatus ≠ "" →
      statusPattern.matchString (env.ToLower opts.MetricsDefaultStatus).data = true ∧
      c.metricDefaultActive =
        decide (env.ToLower opts.MetricsDefaultStatus = metricStatusEnabled)) := by
  simp only [NewCPUCollector, hload] at hok
  cases h1 : applyAllCPU (defaultCPU env) opts with
  | error e => rw [h1] at hok; simp at hok
  | ok c1 =>
    rw [h1] at hok
    simp only at hok
    cases h5 : applyDefaultStatus env
        (applyMetricsDisabled (applyMetricsEnabled (applyID c1 opts) opts) opts) opts with
    | error e => rw [h5] at hok; simp at hok
    | ok c5 =>
      rw [h5] at hok
      simp only at hok
      obtain ⟨a1, b1, _⟩ := applyAllCPU_ok h1
      obtain ⟨a2, b2, _⟩ := applyID_fields c1 opts
      obtain ⟨a3, b3, _⟩ := applyMetricsEnabled_fields (applyID c1 opts) opts
      obtain ⟨a4, b4, _⟩ := applyMetricsDisabled_fields
        (applyMetricsEnabled (applyID c1 opts) opts) opts
      obtain ⟨a5, b5, d5⟩ := applyDefaultStatus_ok h5
      obtain ⟨a6, b6⟩ := applyRunTTL_ok hok
      have hd : (defaultCPU env).metricStatus = [] ∧
          (defaultCPU env).metricDefaultActive = true := ⟨rfl, rfl⟩
      refine ⟨?_, ?_, ?_⟩
      · rw [a6, a5, a4, a3, a2, a1, hd.1]
      · intro he
        rw [b6, b5 he, b4, b3, b2, b1, hd.2]
      · intro hne
        exact ⟨(d5 hne).1, by rw [b6, (d5 hne).2]⟩

/-- The pattern accepts the lower-cased status exactly when it is one of the two words. -/
theorem matchString_status_iff (low : String) :
    statusPattern.matchString low.data = true ↔ (low = "enabled" ∨ low = "disabled") := by
  rw [statusPattern_matchString, String.ext_iff, String.ext_iff]

/-- The block on `report_all_cpus` fails only with the wrapped error of `ParseBool`. -/
theorem applyAllCPU_error {c : CPU} {opts : cpuOptions} {e : GoError}
    (h : applyAllCPU c opts = .error e) :
    ∃ e0 txt, e = .wrap e0 txt ∧ ParseBool opts.AllCPU = .error e0 := by
  unfold applyAllCPU at h
  split at h
  · split at h
    · rename_i err hp
      simp at h
      exact ⟨err, _, h.symm, hp⟩
    · simp at h
  · simp at h

/-- The block on `run_ttl` fails only with the wrapped error of `ParseDuration`. -/
theorem applyRunTTL_error {env : Env} {c : CPU} {opts : cpuOptions} {e : GoError}
    (h : applyRunTTL env c opts = .error e) :
    ∃ e0 txt, e = .wrap e0 txt ∧ env.ParseDuration opts.RunTTL = .error e0 := by
  unfold applyRunTTL at h
  split at h
  · split at h
    · rename_i err hp
      simp at h
      exact ⟨err, _, h.symm, hp⟩
    · simp at h
  · simp at h

/-- C7: when the configuration file loads and `NewCPUCollector` returns a collector, its
`metricStatus` maps every name of `metrics_disabled` to false, every name that is in
`metrics_enabled` and not in `metrics_disabled` to true, and has no entry for a name in
neither list. -/
theorem NewCPUCollector_metricStatus (env : Env) (f : String) (opts : cpuOptions) (c : CPU)
    (name : String) (hload : env.LoadConfigFile f = .ok opts)
    (hok : NewCPUCollector env f = .ok c) :
    (name ∈ opts.MetricsDisabled → mapGet c.metricStatus name = some false) ∧
    (name ∈ opts.MetricsEnabled → name ∉ opts.MetricsDisabled →
      mapGet c.metricStatus name = some true) ∧
    (name ∉ opts.MetricsEnabled → name ∉ opts.MetricsDisabled →
      mapGet c.metricStatus name = none) := by
  obtain ⟨hm, _, _⟩ := NewCPUCollector_ok_inv env f opts c hload hok
  rw [hm, mapGet_foldl_mapSet, mapGet_foldl_mapSet]
  refine ⟨fun h => by simp [h], fun h1 h2 => by simp [h1, h2], fun h1 h2 => ?_⟩
  simp [h1, h2, mapGet]

/-- The sample configuration loads and yields the sample collector. -/
theorem NewCPUCollector_sample : NewCPUCollector sampleEnv "cpu" = .ok sampleCPU := by
  rfl

/-- C7 at the sample configuration, for the name "idle", which is in both lists. -/
theorem NewCPUCollector_metricStatus_witness :
    NewCPUCollector sampleEnv "cpu" = .ok sampleCPU ∧
    ("idle" ∈ sampleOptions.MetricsDisabled → mapGet sampleCPU.metricStatus "idle" = some false) ∧
    ("idle" ∈ sampleOptions.MetricsEnabled → "idle" ∉ sampleOptions.MetricsDisabled →
      mapGet sampleCPU.metricStatus "idle" = some true) ∧
    ("idle" ∉ sampleOptions.MetricsEnabled → "idle" ∉ sampleOptions.MetricsDisabled →
      mapGet sampleCPU.metricStatus "idle" = none) :=
  ⟨NewCPUCollector_sample, NewCPUCollector_metricStatus sampleEnv "cpu" sampleOptions sampleCPU
    "idle" rfl NewCPUCollector_sample⟩

/-- C6: for a loaded configuration with a non-empty `metrics_default_status`, the block that
checks it accepts the value exactly when its lower-cased form is "enabled" or "disabled".
Any other value makes `NewCPUCollector` return an error and no collector (the error "invalid
metric default status" when `report_all_cpus` is in order); a value of the two is never the
reason of a failure (the only errors left are those of `report_all_cpus` and `run_ttl`); and
a collector that is returned has `metricDefaultActive` true exactly when the lower-cased
value is "enabled". With an empty value `metricDefaultActive` keeps its default, true. -/
theorem NewCPUCollector_default_status (env : Env) (f : String) (opts : cpuOptions)
    (hload : env.LoadConfigFile f = .ok opts) :
    (opts.MetricsDefaultStatus ≠ "" → ∀ c0 : CPU,
      ((∃ c5, applyDefaultStatus env c0 opts = .ok c5) ↔
        (env.ToLower opts.MetricsDefaultStatus = "enabled" ∨
          env.ToLower opts.MetricsDefaultStatus = "disabled"))) ∧
    (opts.MetricsDefaultStatus ≠ "" →
      ¬ (env.ToLower opts.MetricsDefaultStatus = "enabled" ∨
          env.ToLower opts.MetricsDefaultStatus = "disabled") →
      (∃ e, NewCPUCollector env f = .error e) ∧
      ((opts.AllCPU = "" ∨ ∃ b, ParseBool opts.AllCPU = .ok b) →
        NewCPUCollector env f = .error (invalidDefaultStatus (defaultCPU env) opts))) ∧
    (opts.MetricsDefaultStatus ≠ "" →
      (env.ToLower opts.MetricsDefaultStatus = "enabled" ∨
          env.ToLower opts.MetricsDefaultStatus = "disabled") →
      (∃ c, NewCPUCollector env f = .ok c) ∨
      (∃ e0 txt, NewCPUCollector env f = .error (.wrap e0 txt) ∧
        (ParseBool opts.AllCPU = .error e0 ∨ env.ParseDuration opts.RunTTL = .error e0))) ∧
    (opts.MetricsDefaultStatus ≠ "" → ∀ c, NewCPUCollector env f = .ok c →
      (env.ToLower opts.MetricsDefaultStatus = "enabled" ∨
          env.ToLower opts.MetricsDefaultStatus = "disabled") ∧
      (c.metricDefaultActive = true ↔ env.ToLower opts.MetricsDefaultStatus = "enabled")) ∧
    (opts.MetricsDefaultStatus = "" → ∀ c, NewCPUCollector env f = .ok c →
      c.metricDefaultActive = true) := by
  refine ⟨?_, ?_, ?_, ?_, ?_⟩
  · intro hne c0
    rw [← matchString_status_iff]
    unfold applyDefaultStatus
    rw [if_pos hne]
    cases hm : statusPattern.matchString (env.ToLower opts.MetricsDefaultStatus).data <;> simp
  · intro hne hbad
    rw [← matchString_status_iff] at hbad
    have hstep : ∀ c0 : CPU, applyDefaultStatus env c0 opts =
        .error (invalidDefaultStatus c0 opts) := by
      intro c0
      unfold applyDefaultStatus
      rw [if_pos hne, if_neg hbad]
    constructor
    · simp only [NewCPUCollector, hload]
      cases h1 : applyAllCPU (defaultCPU env) opts with
      | error e => exact ⟨e, rfl⟩
      | ok c1 =>
        refine ⟨invalidDefaultStatus
          (applyMetricsDisabled (applyMetricsEnabled (applyID c1 opts) opts) opts) opts, ?_⟩
        simp only [hstep]
    · intro hall
      have h1 : ∃ c1, applyAllCPU (defaultCPU env) opts = .ok c1 ∧
          c1.pkgID = (defaultCPU env).pkgID := by
        unfold applyAllCPU
        rcases hall with he | ⟨b, hb⟩
        · exact ⟨defaultCPU env, by rw [if_neg (by simpa using he)], rfl⟩
        · by_cases he : opts.AllCPU = ""
          · exact ⟨defaultCPU env, by rw [if_neg (by simpa using he)], rfl⟩
          · exact ⟨{ defaultCPU env with reportAllCPUs := b }, by rw [if_pos he, hb], rfl⟩
      obtain ⟨c1, h1, hp1⟩ := h1
      simp only [NewCPUCollector, hload, h1, hstep]
      have hp : (applyMetricsDisabled (applyMetricsEnabled (applyID c1 opts) opts) opts).pkgID =
          (defaultCPU env).pkgID := by
        rw [(applyMetricsDisabled_fields _ opts).2.2, (applyMetricsEnabled_fields _ opts).2.2,
          (applyID_fields _ opts).2.2, hp1]
      simp only [invalidDefaultStatus, hp]
  · intro hne hgood
    rw [← matchString_status_iff] at hgood
    simp only [NewCPUCollector, hload]
    cases h1 : applyAllCPU (defaultCPU env) opts with
    | error e =>
      obtain ⟨e0, txt, he, hp⟩ := applyAllCPU_error h1
      exact Or.inr ⟨e0, txt, by simp only [he], Or.inl hp⟩
    | ok c1 =>
      simp only
      have hstep : ∀ c0 : CPU, ∃ c5, applyDefaultStatus env c0 opts = .ok c5 := by
        intro c0
        unfold applyDefaultStatus
        rw [if_pos hne, if_pos hgood]
        exact ⟨_, rfl⟩
      obtain ⟨c5, h5⟩ := hstep
        (applyMetricsDisabled (applyMetricsEnabled (applyID c1 opts) opts) opts)
      rw [h5]
      simp only
      cases h6 : applyRunTTL env c5 opts with
      | error e =>
        obtain ⟨e0, txt, he, hp⟩ := applyRunTTL_error h6
        exact Or.inr ⟨e0, txt, by simp only [he], Or.inr hp⟩
      | ok c6 => exact Or.inl ⟨c6, rfl⟩
  · intro hne c hok
    obtain ⟨_, _, h3⟩ := NewCPUCollector_ok_inv env f opts c hload hok
    obtain ⟨hm, hact⟩ := h3 hne
    refine ⟨(matchString_status_iff _).mp hm, ?_⟩
    rw [hact]
    simp [metricStatusEnabled]
  · intro he c hok
    exact (NewCPUCollector_ok_inv env f opts c hload hok).2.1 he

/-- C6 at the sample configuration, whose default status is "Disabled". -/
theorem NewCPUCollector_default_status_witness :
    sampleEnv.LoadConfigFile "cpu" = .ok sampleOptions ∧
    NewCPUCollector sampleEnv "cpu" = .ok sampleCPU ∧
    (sampleEnv.ToLower sampleOptions.MetricsDefaultStatus = "enabled" ∨
        sampleEnv.ToLower sampleOptions.MetricsDefaultStatus = "disabled") ∧
    (sampleCPU.metricDefaultActive = true ↔
      sampleEnv.ToLower sampleOptions.MetricsDefaultStatus = "enabled") :=
  ⟨rfl, NewCPUCollector_sample,
    (NewCPUCollector_default_status sampleEnv "cpu" sampleOptions rfl).2.2.2.1 (by decide)
      sampleCPU NewCPUCollector_sample⟩

/-- Below a positive duration, the saturating `time.Since` and the elapsed time agree. -/
theorem timeSince_lt_iff (now t ttl : Int) (hpos : 0 < ttl) (hmax : ttl ≤ maxDuration) :
    timeSince now t < ttl ↔ now - t < ttl := by
  have hmaxv : maxDuration = 9223372036854775807 := by norm_num [maxDuration]
  have hminv : minDuration = -9223372036854775808 := by norm_num [minDuration]
  unfold timeSince
  rw [hmaxv] at hmax ⊢
  rw [hminv]
  split_ifs with h1 h2
  · constructor <;> intro h <;> omega
  · constructor <;> intro h <;> omega
  · rfl

/-- The three cases of the test `TestLoadCollect`, and the two rejections together: a
running collector is rejected with `ErrAlreadyRunning`; one that ended just now, with a TTL
of 60 seconds, with `ErrTTLNotExpired`, also when it is running; a fresh one collects. -/
theorem Collect_examples :
    (CPU.Collect sampleCollectEnv { defaultCPU sampleEnv with running := true }).1 =
      some .errAlreadyRunning ∧
    (CPU.Collect sampleCollectEnv
      { defaultCPU sampleEnv with runTTL := 60000000000,
                                  lastEnd := sampleCollectEnv.nowAtCheck }).1 =
      some .errTTLNotExpired ∧
    (CPU.Collect sampleCollectEnv
      { defaultCPU sampleEnv with runTTL := 60000000000, running := true,
                                  lastEnd := sampleCollectEnv.nowAtCheck }).1 =
      some .errTTLNotExpired ∧
    (CPU.Collect sampleCollectEnv (defaultCPU sampleEnv)).1 = none ∧
    (CPU.Collect sampleCollectEnv (defaultCPU sampleEnv)).2.2.length = 3 := by
  decide

/-- C5: `Collect` is rejected, before any call that gathers or stores metrics and with the
collector unchanged, in exactly two cases: with `ErrTTLNotExpired` when `runTTL > 0` and the
time since `lastEnd` is less than `runTTL` (whether or not it is running), otherwise with
`ErrAlreadyRunning` when `running` is true. In every other case it sets `running` to true
(and `lastStart`), gathers the metrics and hands them to `setStatus` in that state, and
returns nil. For a `runTTL` that is a positive duration the saturating `time.Since` is
below it exactly when the elapsed time is. -/
theorem Collect_guard (env : CollectEnv) (c : CPU) :
    ((c.runTTL > 0 ∧ timeSince env.nowAtCheck c.lastEnd < c.runTTL) →
      c.Collect env = (some .errTTLNotExpired, c, [])) ∧
    (¬ (c.runTTL > 0 ∧ timeSince env.nowAtCheck c.lastEnd < c.runTTL) → c.running = true →
      c.Collect env = (some .errAlreadyRunning, c, [])) ∧
    (¬ (c.runTTL > 0 ∧ timeSince env.nowAtCheck c.lastEnd < c.runTTL) → c.running = false →
      ({ c with running := true, lastStart := env.nowAtStart } : CPU).running = true ∧
      c.Collect env =
        (none,
          env.setStatus { c with running := true, lastStart := env.nowAtStart }
            (gather env { c with running := true, lastStart := env.nowAtStart }) none,
          [.percent c.reportAllCPUs, .times c.reportAllCPUs,
            .setStatus (gather env { c with running := true, lastStart := env.nowAtStart })
              none])) ∧
    ((c.Collect env).1 ≠ none ↔
      ((c.runTTL > 0 ∧ timeSince env.nowAtCheck c.lastEnd < c.runTTL) ∨ c.running = true)) ∧
    (0 < c.runTTL → c.runTTL ≤ maxDuration →
      (timeSince env.nowAtCheck c.lastEnd < c.runTTL ↔
        env.nowAtCheck - c.lastEnd < c.runTTL)) := by
  refine ⟨?_, ?_, ?_, ?_, ?_⟩
  · intro h
    simp only [CPU.Collect, if_pos h]
  · intro h hr
    simp only [CPU.Collect, if_neg h, hr, if_true]
  · intro h hr
    refine ⟨rfl, ?_⟩
    simp [CPU.Collect, if_neg h, hr]
  · by_cases h : c.runTTL > 0 ∧ timeSince env.nowAtCheck c.lastEnd < c.runTTL
    · simp [CPU.Collect, if_pos h, h]
    · cases hr : c.running <;> simp [CPU.Collect, if_neg h, hr, h]
  · exact fun hpos hmax => timeSince_lt_iff _ _ _ hpos hmax

end Generic
